import Mathlib

namespace ContactBook

/-! Shallow embedding of `src/main.py`: a console address book with validated
fields (Name, Phone, Birthday), Records, an AddressBook (an insertion-ordered
dict of records), the upcoming-birthdays computation and the command loop. -/

deriving instance DecidableEq for Except

def isOkE {α : Type} : Except String α → Bool
  | .ok _ => true
  | .error _ => false

/-! ### Phone validation

The source validates with
`re.fullmatch(r"^\+?\d{1,3}?[-.\s]?(\(\d{1,4}\)|\d{1,4})[-.\s]?\d{1,4}[-.\s]?\d{1,9}$", phone)`.
We embed the regex as a nondeterministic matcher: each piece maps a list of
characters to the list of possible remainders, and the whole pattern matches
iff some chain of choices consumes the entire string (regex backtracking
finds a match iff one exists).  Note `\d{1,3}?` is the lazy variant of
`\d{1,3}`: it still requires at least one digit. -/

/-- Characters of the regex class `[-.\s]` (ASCII whitespace as matched by Python `\s`). -/
def isSep (c : Char) : Bool :=
  c == '-' || c == '.' || c == ' ' || c == '\t' || c == '\n' || c == '\r' ||
  c == '\x0b' || c == '\x0c'

/-- Optionally consume one character satisfying `p` (regex `X?`): possible remainders. -/
def optConsume (p : Char → Bool) (l : List Char) : List (List Char) :=
  match l with
  | [] => [[]]
  | c :: rest => if p c then [c :: rest, rest] else [c :: rest]

/-- Consume exactly `k` digits, or fail. -/
def consumeDigits : Nat → List Char → Option (List Char)
  | 0, l => some l
  | _ + 1, [] => none
  | k + 1, c :: rest => if c.isDigit then consumeDigits k rest else none

/-- Regex `\d{lo,hi}` (greedy or lazy: same set of remainders). -/
def digitsRange (lo hi : Nat) (l : List Char) : List (List Char) :=
  (List.range (hi + 1 - lo)).filterMap fun i => consumeDigits (lo + i) l

/-- Regex `(\(\d{1,4}\)|\d{1,4})`: area code with or without parentheses. -/
def areaCode (l : List Char) : List (List Char) :=
  (match l with
   | '(' :: rest =>
     (digitsRange 1 4 rest).filterMap fun r =>
       match r with
       | ')' :: r2 => some r2
       | _ => none
   | _ => []) ++ digitsRange 1 4 l

/-- Full-string match of the phone regex (anchored at both ends, as `re.fullmatch`). -/
def matchPhone (l : List Char) : Bool :=
  (optConsume (fun c => c == '+') l).any fun a =>
  (digitsRange 1 3 a).any fun b =>
  (optConsume isSep b).any fun c =>
  (areaCode c).any fun d =>
  (optConsume isSep d).any fun e =>
  (digitsRange 1 4 e).any fun f =>
  (optConsume isSep f).any fun g =>
  (digitsRange 1 9 g).any fun h => h.isEmpty

def is_valid_phone (s : String) : Bool := matchPhone s.data

def phoneErrMsg : String :=
  "The phone should optionally contain country code (1-3 digits with/withount +) " ++
  "and mandatory contain a regional code (1-4 digits with/without brackets()) " ++
  "followed by up to 9 digits. Allowed separators are \x27 \x27, \x27-\x27, \x27.\x27"

/-- `Phone.__init__`: validate, store the raw string. -/
def mkPhone (s : String) : Except String String :=
  if is_valid_phone s then .ok s else .error phoneErrMsg

/-- `Name.__init__`: at least 2 characters. -/
def mkName (s : String) : Except String String :=
  if s.length < 2 then .error "Name should contain at least 2 characters" else .ok s

/-! ### Birthday validation

`Birthday.__init__` accepts the raw string iff
`datetime.strptime(value, "%d.%m.%Y")` succeeds.  CPython compiles that format
to the regex
`(?P<d>3[0-1]|[1-2]\d|0[1-9]|[1-9]| [1-9])\.(?P<m>1[0-2]|0[1-9]|[1-9])\.(?P<Y>\d\d\d\d)`,
requires it to consume the whole input, and then builds
`datetime(year, month, day)`, which raises when the day is out of range for
the month or the year is outside `1..9999`.  Note the day and month fields
accept one- or two-digit values (and the day even a space-padded digit): the
widths are NOT fixed. -/

def digitVal (c : Char) : Nat := c.toNat - '0'.toNat

def digitsToNat (l : List Char) : Nat := l.foldl (fun acc c => 10 * acc + digitVal c) 0

/-- Split off the maximal leading run of digits. -/
def digitSpan : List Char → List Char × List Char
  | [] => ([], [])
  | c :: rest =>
    if c.isDigit then
      let (a, b) := digitSpan rest
      (c :: a, b)
    else ([], c :: rest)

/-- The day field `3[0-1]|[1-2]\d|0[1-9]|[1-9]` on a maximal digit run:
one digit `1..9`, or two digits with value `1..31`. -/
def dayDigits (l : List Char) : Option Nat :=
  if l.all Char.isDigit then
    let v := digitsToNat l
    if (l.length = 1 ∧ 1 ≤ v ∧ v ≤ 9) ∨ (l.length = 2 ∧ 1 ≤ v ∧ v ≤ 31) then some v
    else none
  else none

/-- The month field `1[0-2]|0[1-9]|[1-9]` on a maximal digit run:
one digit `1..9`, or two digits with value `1..12`. -/
def monthDigits (l : List Char) : Option Nat :=
  if l.all Char.isDigit then
    let v := digitsToNat l
    if (l.length = 1 ∧ 1 ≤ v ∧ v ≤ 9) ∨ (l.length = 2 ∧ 1 ≤ v ∧ v ≤ 12) then some v
    else none
  else none

/-- The year field `\d\d\d\d`: exactly four digits. -/
def yearDigits (l : List Char) : Option Nat :=
  if l.length = 4 ∧ l.all Char.isDigit = true then some (digitsToNat l) else none

/-- Parse the day field and return `(value, remainder)`; the `\x27 [1-9]\x27`
alternative consumes a literal space followed by one nonzero digit. -/
def dayRun (l : List Char) : Option (Nat × List Char) :=
  match l with
  | ' ' :: c :: rest => if c.isDigit && c != '0' then some (digitVal c, rest) else none
  | _ =>
    let (run, rest) := digitSpan l
    match dayDigits run with
    | some d => some (d, rest)
    | none => none

/-- The regex part of `strptime(s, "%d.%m.%Y")`: day `.` month `.` year,
consuming the entire input.  Returns `(day, month, year)`. -/
def strptimeDMY (l : List Char) : Option (Nat × Nat × Nat) :=
  match dayRun l with
  | none => none
  | some (d, r1) =>
    match r1 with
    | '.' :: r2 =>
      let (mRun, r3) := digitSpan r2
      match monthDigits mRun, r3 with
      | some m, '.' :: r4 =>
        let (yRun, r5) := digitSpan r4
        match yearDigits yRun with
        | some y => if r5.isEmpty then some (d, m, y) else none
        | none => none
      | _, _ => none
    | _ => none

def is_leap (y : Nat) : Bool := y % 4 = 0 && (y % 100 ≠ 0 || y % 400 = 0)

def days_in_month (m y : Nat) : Nat :=
  if m = 2 then (if is_leap y then 29 else 28)
  else if m = 4 ∨ m = 6 ∨ m = 9 ∨ m = 11 then 30 else 31

/-- The `datetime(year, month, day)` constructor checks (`MINYEAR = 1`,
`MAXYEAR = 9999`, day within the month). -/
def toDate? (d m y : Nat) : Option (Nat × Nat × Nat) :=
  if 1 ≤ y ∧ y ≤ 9999 ∧ 1 ≤ m ∧ m ≤ 12 ∧ 1 ≤ d ∧ d ≤ days_in_month m y then
    some (d, m, y)
  else none

/-- `Birthday.parse_date`: full `strptime(s, "%d.%m.%Y")`, `none` on failure. -/
def parse_date (s : String) : Option (Nat × Nat × Nat) :=
  match strptimeDMY s.data with
  | some (d, m, y) => toDate? d m y
  | none => none

/-- `Birthday.__init__`: validate via `parse_date`, store the raw string. -/
def mkBirthday (s : String) : Except String String :=
  match parse_date s with
  | some _ => .ok s
  | none => .error "Invalid date format. Use DD.MM.YYYY"

/-! ### Record

A `Record` holds a validated name, an ordered list of phones and an optional
birthday.  `Field` values compare by their stored string (`@dataclass`
equality), so phones and birthdays are embedded as their validated raw
strings.  The `@input_error`-decorated methods are embedded undecorated as
`Except String`-returning operations; the decorator (which renders an error
`e` as the string `"Error: " ++ e`) is applied at the dispatch layer. -/

structure Rec where
  name : String
  phones : List String
  birthday : Option String
deriving DecidableEq

/-- `Record.find_phone`: first phone with the given value, if any. -/
def findPhone (r : Rec) (phone : String) : Option String :=
  r.phones.find? (fun p => p = phone)

/-- Replace the first occurrence of `old` (found by value equality, as
`self.phones[self.phones.index(existing_phone)] = new_phone_item`). -/
def replaceFirst : List String → String → String → List String
  | [], _, _ => []
  | p :: rest, old, np => if p = old then np :: rest else p :: replaceFirst rest old np

/-- `Record.change_phone`: fail if `old` is absent, validate `new`, then
overwrite the old entry in its original list position. -/
def change_phone (r : Rec) (old np : String) : Except String (String × Rec) :=
  match findPhone r old with
  | none => .error ("Phone " ++ old ++ " not found")
  | some _ =>
    match mkPhone np with
    | .error e => .error e
    | .ok p => .ok ("Contact changed.", { r with phones := replaceFirst r.phones old p })

/-- `Record.remove_phone`: fail if absent, else drop the first occurrence. -/
def remove_phone (r : Rec) (phone : String) : Except String (String × Rec) :=
  match findPhone r phone with
  | none => .error ("Phone " ++ phone ++ " not found")
  | some _ =>
    .ok ("Phone has been removed", { r with phones := r.phones.eraseP (fun p => p = phone) })

/-- `Record.add_birthday`: fail if a birthday is already set, else validate
and store it. -/
def add_birthday (r : Rec) (b : String) : Except String (String × Rec) :=
  match r.birthday with
  | some _ => .error "Birthday already exists"
  | none =>
    match mkBirthday b with
    | .error e => .error e
    | .ok bv => .ok ("Birthday added", { r with birthday := some bv })

/-- `Record.__str__`. -/
def recStr (r : Rec) : String :=
  "Contact name: " ++ r.name ++ ", phones: " ++ String.intercalate "; " r.phones ++
  (match r.birthday with
   | some b => ", birthday: " ++ b
   | none => "")

/-! ### AddressBook

`AddressBook` is a `UserDict`: an insertion-ordered mapping from names to
Records, embedded as an association list with unique keys.  A new key is
appended at the end (dict insertion order); updating a Record keeps its
position (Python mutates the stored object in place). -/

abbrev Book := List (String × Rec)

/-- `self.data.get(name)`. -/
def bookGet (book : Book) (name : String) : Option Rec :=
  (book.find? (fun p => p.1 = name)).map (fun p => p.2)

/-- In-place mutation of the record stored under `name`. -/
def bookUpdate : Book → String → Rec → Book
  | [], _, _ => []
  | (k, r) :: rest, name, r2 =>
    if k = name then (k, r2) :: rest else (k, r) :: bookUpdate rest name r2

/-- `self.data.pop(name, default)`: drop the binding if present. -/
def bookPop (book : Book) (name : String) : Book :=
  book.filter (fun p => p.1 ≠ name)

/-- `AddressBook.add_record`: needs two arguments; creates a fresh Record for
a new name, otherwise appends the validated phone unless that exact value is
already present on the contact. -/
def add_record (book : Book) (args : List String) : Except String (String × Book) :=
  match args with
  | name :: phone :: _ =>
    match bookGet book name with
    | none =>
      match mkName name with
      | .error e => .error e
      | .ok n =>
        match mkPhone phone with
        | .error e => .error e
        | .ok p => .ok ("Contact " ++ name ++ " added", book ++ [(name, ⟨n, [p], none⟩)])
    | some r =>
      match mkPhone phone with
      | .error e => .error e
      | .ok p =>
        if p ∈ r.phones then
          .error ("The phone " ++ phone ++ " already exists in contact " ++ name)
        else
          .ok ("New phone for contact " ++ name ++ " has been added",
               bookUpdate book name { r with phones := r.phones ++ [p] })
  | _ =>
    .error "\x22add\x22 command should contain 2 arguments \x22name\x22 and \x22phone number\x22"

/-- `AddressBook.find`: fail without a name argument, fail if the key is
absent, else return the Record. -/
def find (book : Book) (args : List String) : Except String Rec :=
  match args with
  | [] => .error "Contact name missing"
  | name :: _ =>
    match bookGet book name with
    | none => .error ("User " ++ name ++ " not found")
    | some r => .ok r

/-- `AddressBook.delete`: fail without a name argument; otherwise `pop` with a
default and report success whether or not the key existed. -/
def delete (book : Book) (args : List String) : Except String (String × Book) :=
  match args with
  | [] => .error "Contact name missing"
  | name :: _ => .ok ("Contact " ++ name ++ " deleted", bookPop book name)

/-- `AddressBook.__str__`. -/
def bookStr (book : Book) : String :=
  if book.isEmpty then "No contacts available"
  else String.intercalate "\n" (book.map (fun p => recStr p.2))

/-! ### Calendar dates

`get_upcoming_birthdays` uses `datetime.date` values: proleptic Gregorian
calendar dates compared field-lexicographically, with `date.toordinal()`
counting days from 0001-01-01 = 1 (a Monday, so `weekday()` with Monday = 0
is `(toordinal + 6) % 7`). -/

structure Date where
  year : Nat
  month : Nat
  day : Nat
deriving DecidableEq

def dateLt (a b : Date) : Prop :=
  a.year < b.year ∨ (a.year = b.year ∧
    (a.month < b.month ∨ (a.month = b.month ∧ a.day < b.day)))

def dateLe (a b : Date) : Prop :=
  a.year < b.year ∨ (a.year = b.year ∧
    (a.month < b.month ∨ (a.month = b.month ∧ a.day ≤ b.day)))

instance : ∀ a b, Decidable (dateLt a b) := fun _ _ => by unfold dateLt; infer_instance

instance : ∀ a b, Decidable (dateLe a b) := fun _ _ => by unfold dateLe; infer_instance

/-- Days in the months strictly before month `m` of year `y`. -/
def daysBeforeMonth (m y : Nat) : Nat :=
  ((List.range (m - 1)).map (fun i => days_in_month (i + 1) y)).sum

/-- `date.toordinal()`. -/
def toOrdinal (d : Date) : Nat :=
  365 * (d.year - 1) + (d.year - 1) / 4 - (d.year - 1) / 100 + (d.year - 1) / 400 +
    daysBeforeMonth d.month d.year + d.day

/-- `date.weekday()`: Monday = 0 .. Sunday = 6. -/
def weekday (d : Date) : Nat := (toOrdinal d + 6) % 7

/-- The day after `d`. -/
def succDate (d : Date) : Date :=
  if d.day < days_in_month d.month d.year then ⟨d.year, d.month, d.day + 1⟩
  else if d.month < 12 then ⟨d.year, d.month + 1, 1⟩
  else ⟨d.year + 1, 1, 1⟩

/-- `d + timedelta(days = n)`. -/
def addDays (d : Date) : Nat → Date
  | 0 => d
  | n + 1 => succDate (addDays d n)

/-- `date.replace(year = y)`: rebuild the date with the new year; the `date`
constructor re-checks the year range and that the day fits the month (it
raises `ValueError` for 29 February in a non-leap year). -/
def replace_year (d : Date) (y : Nat) : Option Date :=
  if 1 ≤ y ∧ y ≤ 9999 ∧ 1 ≤ d.month ∧ d.month ≤ 12 ∧ 1 ≤ d.day ∧
      d.day ≤ days_in_month d.month y then
    some ⟨y, d.month, d.day⟩
  else none

/-- `"%02d"` rendering. -/
def pad2 (n : Nat) : String := if n < 10 then "0" ++ toString n else toString n

/-- Four-digit year rendering. -/
def pad4 (n : Nat) : String :=
  if n < 10 then "000" ++ toString n
  else if n < 100 then "00" ++ toString n
  else if n < 1000 then "0" ++ toString n
  else toString n

/-- `date.strftime("%d.%m.%Y")`. -/
def strftimeDMY (d : Date) : String := pad2 d.day ++ "." ++ pad2 d.month ++ "." ++ pad4 d.year

/-! ### get_upcoming_birthdays -/

/-- One returned `{"name": ..., "congratulation_date": ...}` entry. -/
structure BEntry where
  name : String
  congratulation_date : String
deriving DecidableEq

/-- The loop body of `get_upcoming_birthdays` for one Record: skip when no
birthday is set; re-parse the stored string (`strptime` raises on failure);
re-stamp onto the current year (`replace` raises for 29 February outside a
leap year); roll forward one year if already passed; keep occurrences in
`[today, today + 7]`, shifting weekend dates to the following Monday. -/
def processUser (today nextWeek : Date) (r : Rec) : Except String (Option BEntry) :=
  match r.birthday with
  | none => .ok none
  | some bstr =>
    match parse_date bstr with
    | none => .error ("time data \x27" ++ bstr ++ "\x27 does not match format \x27%d.%m.%Y\x27")
    | some (d, m, y) =>
      match replace_year ⟨y, m, d⟩ today.year with
      | none => .error "day is out of range for month"
      | some b1 =>
        match (if dateLt b1 today then replace_year b1 (today.year + 1) else some b1) with
        | none => .error "day is out of range for month"
        | some b2 =>
          if dateLe today b2 ∧ dateLe b2 nextWeek then
            .ok (some ⟨r.name,
              strftimeDMY (if weekday b2 = 5 ∨ weekday b2 = 6
                           then addDays b2 (7 - weekday b2) else b2)⟩)
          else .ok none

/-- The `for user in all_users` loop: entries are appended in book order; a
raised `ValueError` aborts the whole call. -/
def gubGo (today nextWeek : Date) : Book → Except String (List BEntry)
  | [] => .ok []
  | (_, r) :: rest =>
    match processUser today nextWeek r with
    | .error e => .error e
    | .ok none => gubGo today nextWeek rest
    | .ok (some entry) =>
      match gubGo today nextWeek rest with
      | .error e => .error e
      | .ok l => .ok (entry :: l)

/-- `AddressBook.get_upcoming_birthdays`, with `datetime.today().date()`
passed explicitly as `today`. -/
def get_upcoming_birthdays (today : Date) (book : Book) : Except String (List BEntry) :=
  gubGo today (addDays today 7) book

/-- Spec-side description of one output entry (written from the spec's words
in section 4.3 of the design: re-stamp the stored birthday's month/day onto
the current year, roll forward one year if it already passed, keep it when it
falls in `[today, today + 7 days]` inclusive, shift Saturday/Sunday
occurrences to the next Monday, format `DD.MM.YYYY`). -/
def specCongratulation (today : Date) (r : Rec) : Option BEntry :=
  match r.birthday with
  | none => none
  | some bstr =>
    match parse_date bstr with
    | none => none
    | some (d, m, _) =>
      let occ0 : Date := ⟨today.year, m, d⟩
      let occ : Date := if dateLt occ0 today then ⟨today.year + 1, m, d⟩ else occ0
      if dateLe today occ ∧ dateLe occ (addDays today 7) then
        some ⟨r.name,
          strftimeDMY (if weekday occ = 5 ∨ weekday occ = 6
                       then addDays occ (7 - weekday occ) else occ)⟩
      else none

/-! ### The command loop (`main`)

One iteration of the `while True` loop, for an already-tokenized input line.
The loop body runs inside `try: ... except ValueError as e: print(f"Error:
...")`, so a `ValueError` raised by an operation is printed and the loop goes
on.  The decorated methods instead RETURN the string `"Error: <message>"`; in
particular `book.find(args)` returns either a `Record` or such a string, and
the `change` / `add-birthday` / `show-birthday` branches then access
attributes (`change_phone`, `add_birthday`, `birthday`) on the returned
value.  When `find` failed, that value is a `str`, and the attribute access
raises `AttributeError` — which `except ValueError` does NOT catch, so the
process dies with a traceback.  `StepOutcome.crash` embeds that uncaught
exception; `.stop` is the `close`/`exit` path; `.next` continues the loop. -/

inductive StepOutcome where
  | next
  | stop
  | crash (msg : String)
deriving DecidableEq

structure StepResult where
  outputs : List String
  book : Book
  outcome : StepOutcome
deriving DecidableEq

/-- The `@input_error` decorator: render a raised `ValueError` as a returned
`"Error: <message>"` string. -/
def input_error (r : Except String String) : String :=
  match r with
  | .ok msg => msg
  | .error e => "Error: " ++ e

def attrErr (attr : String) : String :=
  "AttributeError: \x27str\x27 object has no attribute \x27" ++ attr ++ "\x27"

/-- Dispatch of one already-lower-cased command with its argument list. -/
def runCommand (today : Date) (book : Book) (cmd : String) (args : List String) :
    StepResult :=
  if cmd = "close" ∨ cmd = "exit" then ⟨["Good bye!"], book, .stop⟩
  else if cmd = "hello" then ⟨["How can I help you?"], book, .next⟩
  else if cmd = "add" then
    match add_record book args with
    | .ok (msg, b2) => ⟨[msg], b2, .next⟩
    | .error e => ⟨["Error: " ++ e], book, .next⟩
  else if cmd = "all" then ⟨[bookStr book], book, .next⟩
  else if cmd = "phone" then
    match find book args with
    | .ok r => ⟨[recStr r], book, .next⟩
    | .error e => ⟨["Error: " ++ e], book, .next⟩
  else if cmd = "delete" then
    match delete book args with
    | .ok (msg, b2) => ⟨[msg], b2, .next⟩
    | .error e => ⟨["Error: " ++ e], book, .next⟩
  else if cmd = "change" then
    match args with
    | n :: o :: np :: _ =>
      match find book args with
      | .error _ => ⟨[], book, .crash (attrErr "change_phone")⟩
      | .ok r =>
        match change_phone r o np with
        | .ok (msg, r2) => ⟨[msg], bookUpdate book n r2, .next⟩
        | .error e => ⟨["Error: " ++ e], book, .next⟩
    | _ =>
      ⟨["Error: \x27change\x27 command should contain 3 arguments: name, old_phone, new_phone"],
       book, .next⟩
  else if cmd = "add-birthday" then
    match args with
    | n :: b :: _ =>
      match find book args with
      | .error _ => ⟨[], book, .crash (attrErr "add_birthday")⟩
      | .ok r =>
        match add_birthday r b with
        | .ok (msg, r2) => ⟨[msg], bookUpdate book n r2, .next⟩
        | .error e => ⟨["Error: " ++ e], book, .next⟩
    | _ =>
      ⟨["Error: \x22add-birthday\x22 command should contain 2 arguments \x22name\x22 and \x22birthday\x22 in format DD.MM.YYYY"],
       book, .next⟩
  else if cmd = "show-birthday" then
    match args with
    | [] => ⟨[], book, .crash (attrErr "birthday")⟩
    | n :: _ =>
      match find book args with
      | .error _ => ⟨[], book, .crash (attrErr "birthday")⟩
      | .ok r =>
        match r.birthday with
        | some b => ⟨["Birthday: " ++ b], book, .next⟩
        | none => ⟨["Birthday for contact " ++ n ++ " hasn\x27t been set"], book, .next⟩
  else if cmd = "birthdays" then
    match get_upcoming_birthdays today book with
    | .ok l =>
      -- printed as the Python repr of the list of dicts; the exact repr text
      -- is abstracted into a readable rendering, no claim depends on it
      ⟨[String.intercalate "; " (l.map (fun e => e.name ++ ": " ++ e.congratulation_date))],
       book, .next⟩
    | .error e => ⟨["Error: " ++ e], book, .next⟩
  else ⟨["Invalid command."], book, .next⟩

/-- `str.lower()` on the ASCII range (character-list form of `String.toLower`). -/
def lowerString (s : String) : String := ⟨s.data.map Char.toLower⟩

/-- One loop iteration on a tokenized line (`parse_input` raises on an empty
line, caught at the loop boundary; the first token is lower-cased). -/
def step (today : Date) (book : Book) (tokens : List String) : StepResult :=
  match tokens with
  | [] => ⟨["Error: There are no arguments passed"], book, .next⟩
  | cmd :: args => runCommand today book (lowerString cmd) args

/-! ### Persistence (`save_data` / `load_data`)

Modelled from the spec: the byte-level pickle format and the file system are
outside the repository's code (`pickle.dump` / `pickle.load` on
`addressbook.pkl`); section 6 of the design treats the layout as "a tagged
binary encoding of the entity graph" with the behavioral contract
`load(save(D)) == D`.  The serialized snapshot is embedded as a tagged tree
(`PickleVal`) holding the full object graph — every Record with its name, its
phone list in order, and its optional birthday — and `load_data` structurally
decodes it. -/

inductive PickleVal where
  | pstr (s : String)
  | pnone
  | plist (l : List PickleVal)

/-- Serialize one Record (its full field graph). -/
def pickleRec (r : Rec) : PickleVal :=
  .plist [.pstr r.name, .plist (r.phones.map .pstr),
          match r.birthday with
          | some b => .pstr b
          | none => .pnone]

/-- `AddressBook.save_data`: serialize the whole book, keys with Records. -/
def save_data (book : Book) : PickleVal :=
  .plist (book.map (fun p => .plist [.pstr p.1, pickleRec p.2]))

def unpickleStr : PickleVal → Option String
  | .pstr s => some s
  | _ => none

/-- Decode a list of serialized strings. -/
def unpickleStrs : List PickleVal → Option (List String)
  | [] => some []
  | v :: rest =>
    match unpickleStr v, unpickleStrs rest with
    | some s, some l => some (s :: l)
    | _, _ => none

/-- Decode one Record. -/
def unpickleRec : PickleVal → Option Rec
  | .plist [.pstr n, .plist ps, bd] =>
    match unpickleStrs ps with
    | none => none
    | some phones =>
      match bd with
      | .pnone => some ⟨n, phones, none⟩
      | .pstr b => some ⟨n, phones, some b⟩
      | _ => none
  | _ => none

/-- Decode the keyed entries of the snapshot. -/
def unpickleEntries : List PickleVal → Option Book
  | [] => some []
  | e :: rest =>
    match e with
    | .plist [.pstr k, rv] =>
      match unpickleRec rv, unpickleEntries rest with
      | some r, some b => some ((k, r) :: b)
      | _, _ => none
    | _ => none

/-- `AddressBook.load_data` on an existing file: decode the snapshot. -/
def load_data : PickleVal → Option Book
  | .plist entries => unpickleEntries entries
  | _ => none

/-! ### Spec-side predicates and helpers for the claims -/

/-- Spec-side date acceptance, written from the claim's words: an existing
calendar date in strict `DD.MM.YYYY` form with FIXED field widths
(two-digit day, two-digit month, four-digit year). -/
def strictDMYAccepts (s : String) : Bool :=
  match s.data with
  | [d1, d2, p1, m1, m2, p2, y1, y2, y3, y4] =>
    p1 == '.' && p2 == '.' && [d1, d2, m1, m2, y1, y2, y3, y4].all Char.isDigit &&
    (decide (1 ≤ digitsToNat [y1, y2, y3, y4] ∧ digitsToNat [y1, y2, y3, y4] ≤ 9999 ∧
             1 ≤ digitsToNat [m1, m2] ∧ digitsToNat [m1, m2] ≤ 12 ∧
             1 ≤ digitsToNat [d1, d2] ∧
             digitsToNat [d1, d2] ≤
               days_in_month (digitsToNat [m1, m2]) (digitsToNat [y1, y2, y3, y4])))
  | _ => false

/-- The stored birthday string (if any) re-parses with `strptime`. -/
def parsesOk (r : Rec) : Bool :=
  match r.birthday with
  | none => true
  | some b => (parse_date b).isSome

/-- The stored birthday string (if any) re-parses and is not a 29 February. -/
def recBirthdayOk (r : Rec) : Bool :=
  match r.birthday with
  | none => true
  | some b =>
    match parse_date b with
    | some (d, m, _) => !(d == 29 && m == 2)
    | none => false

/-- The stored birthday is a 29 February. -/
def hasFeb29 (r : Rec) : Bool :=
  match r.birthday with
  | none => false
  | some b =>
    match parse_date b with
    | some (d, m, _) => d == 29 && m == 2
    | none => false

/-- Every Record's birthday re-parses and avoids 29 February. -/
def goodBook (book : Book) : Bool := book.all (fun p => recBirthdayOk p.2)

/-- Example contact with a birthday inside the example window. -/
def annRec : Rec := ⟨"Ann", ["0501234567"], some "12.06.1990"⟩

/-- Example contact whose 2024 occurrence (15.06.2024) is a Saturday. -/
def samRec : Rec := ⟨"Sam", ["0507654321"], some "15.06.1991"⟩

/-- Example contact born on a 29 February. -/
def leoRec : Rec := ⟨"Leo", ["0501112233"], some "29.02.2024"⟩

/-- Example contact without a birthday. -/
def bobRec : Rec := ⟨"Bob", ["0509998877"], none⟩

def annBook : Book := [("Ann", annRec)]

def windowBook : Book := [("Ann", annRec), ("Sam", samRec)]

def leoBook : Book := [("Bob", bobRec), ("Leo", leoRec)]

/-! ## Theorems -/

/-- C1 (counterexample): the claim asserts that `Phone` construction succeeds
for `"(044)123-45-67"` and fails for `"+1234567890123456"`; the code does the
opposite.  `\d{1,3}?` is a lazy quantifier with a minimum of one digit, so the
country-code digits are mandatory and a leading parenthesis cannot match; and
the digit groups admit up to 3+4+4+9 digits, so a plus sign followed by 16
digits fully matches. -/
theorem c1_cx : isOkE (mkPhone "(044)123-45-67") = false ∧
    isOkE (mkPhone "+1234567890123456") = true := by decide

/-- C1 (amended): Phone construction succeeds exactly for strings fully
matching the regex, anchored at both ends (substring occurrences are
rejected): `"+380501234567"`, `"123 4567 89012"` and `"+1234567890123456"`
succeed; `"(044)123-45-67"` (no leading country-code digit), `"abc"` and
`"12"` fail with a ValidationError. -/
theorem c1_thm :
    isOkE (mkPhone "+380501234567") = true ∧
    isOkE (mkPhone "123 4567 89012") = true ∧
    isOkE (mkPhone "+1234567890123456") = true ∧
    isOkE (mkPhone "(044)123-45-67") = false ∧
    isOkE (mkPhone "abc") = false ∧
    isOkE (mkPhone "12") = false ∧
    isOkE (mkPhone "phone: +380501234567") = false ∧
    isOkE (mkPhone "+380501234567!") = false := by decide

/-- C2 (code bug): on a book without the key `"Ghost"`, the commands
`show-birthday Ghost`, `change Ghost <old> <new>` and `add-birthday Ghost
<date>` make the decorated `find` RETURN the error string instead of a
Record; the subsequent attribute access raises `AttributeError`, which the
loop's `except ValueError` does not catch, so the process crashes instead of
printing an error.  A plain `phone Ghost`, by contrast, is recovered and the
loop continues. -/
theorem c2_thm :
    (step ⟨2024, 6, 10⟩ annBook ["show-birthday", "Ghost"]).outcome
        = .crash (attrErr "birthday") ∧
    (step ⟨2024, 6, 10⟩ annBook ["change", "Ghost", "0501234567", "0507654321"]).outcome
        = .crash (attrErr "change_phone") ∧
    (step ⟨2024, 6, 10⟩ annBook ["add-birthday", "Ghost", "01.01.2000"]).outcome
        = .crash (attrErr "add_birthday") ∧
    (step ⟨2024, 6, 10⟩ annBook ["phone", "Ghost"])
        = ⟨["Error: User Ghost not found"], annBook, .next⟩ := by decide

/-- C3 (counterexample): `"1.1.2024"` is not in strict fixed-width
`DD.MM.YYYY` form, yet `Birthday` construction accepts it — `strptime`'s
`%d` and `%m` fields take one- or two-digit values. -/
theorem c3_cx : isOkE (mkBirthday "1.1.2024") = true ∧
    strictDMYAccepts "1.1.2024" = false := by decide

/-- C4 (counterexample): the claim quantifies over every Directory and every
`today`, but a stored birthday of 29 February makes `replace(year = 2023)`
raise `ValueError`, so the query fails instead of returning a list. -/
theorem c4_cx : isOkE (get_upcoming_birthdays ⟨2023, 6, 10⟩ leoBook) = false := by decide

/-- `digitSpan` consumes an all-digit list whole. -/
theorem digitSpan_all {l : List Char} (h : l.all Char.isDigit = true) :
    digitSpan l = (l, []) := by
  induction l with
  | nil => rfl
  | cons c rest ih =>
    simp only [List.all_cons, Bool.and_eq_true] at h
    simp [digitSpan, h.1, ih h.2]

/-- `digitSpan` stops at the first non-digit. -/
theorem digitSpan_append (l r : List Char) (c : Char) (h : l.all Char.isDigit = true)
    (hc : c.isDigit = false) :
    digitSpan (l ++ c :: r) = (l, c :: r) := by
  induction l with
  | nil => simp [digitSpan, hc]
  | cons a tl ih =>
    simp only [List.all_cons, Bool.and_eq_true] at h
    simp [digitSpan, h.1, ih h.2]

theorem dayDigits_some {l : List Char} {d : Nat} (h : dayDigits l = some d) :
    1 ≤ d ∧ l.all Char.isDigit = true ∧ (l.length = 1 ∨ l.length = 2) := by
  simp only [dayDigits] at h
  split_ifs at h with hall hcond
  have hd : digitsToNat l = d := by injection h
  subst hd
  rcases hcond with ⟨h1, h2, _⟩ | ⟨h1, h2, _⟩ <;> exact ⟨h2, hall, by omega⟩

theorem monthDigits_some {l : List Char} {m : Nat} (h : monthDigits l = some m) :
    1 ≤ m ∧ m ≤ 12 ∧ l.all Char.isDigit = true := by
  simp only [monthDigits] at h
  split_ifs at h with hall hcond
  have hm : digitsToNat l = m := by injection h
  subst hm
  rcases hcond with ⟨_, h2, h3⟩ | ⟨_, h2, h3⟩ <;> exact ⟨h2, by omega, hall⟩

theorem yearDigits_some {l : List Char} {y : Nat} (h : yearDigits l = some y) :
    l.all Char.isDigit = true := by
  simp only [yearDigits] at h
  split_ifs at h with hc
  exact hc.2

/-- The `%d.%m.%Y` regex accepts any well-formed day/month/year field triple
joined by dots. -/
theorem strptime_of_fields (dcs mcs ycs : List Char) (d m y : Nat)
    (hd : dayDigits dcs = some d) (hm : monthDigits mcs = some m)
    (hy : yearDigits ycs = some y) :
    strptimeDMY (dcs ++ '.' :: (mcs ++ '.' :: ycs)) = some (d, m, y) := by
  obtain ⟨hd1, hdall, hdlen⟩ := dayDigits_some hd
  obtain ⟨hm1, hm2, hmall⟩ := monthDigits_some hm
  have hyall := yearDigits_some hy
  have hdot : ('.' : Char).isDigit = false := by decide
  have hday : dayRun (dcs ++ '.' :: (mcs ++ '.' :: ycs)) =
      some (d, '.' :: (mcs ++ '.' :: ycs)) := by
    cases dcs with
    | nil => simp at hdlen
    | cons a tl =>
      have ha : a.isDigit = true := by
        simp only [List.all_cons, Bool.and_eq_true] at hdall
        exact hdall.1
      unfold dayRun
      split
      · rename_i heq
        rw [List.cons_append] at heq
        injection heq with h1 _
        rw [h1] at ha
        exact absurd ha (by decide)
      · have hspan : digitSpan (a :: (tl ++ '.' :: (mcs ++ '.' :: ycs))) =
            (a :: tl, '.' :: (mcs ++ '.' :: ycs)) := by
          rw [← List.cons_append]
          exact digitSpan_append (a :: tl) (mcs ++ '.' :: ycs) '.' hdall hdot
        simp [hspan, hd]
  unfold strptimeDMY
  rw [hday]
  simp [digitSpan_append mcs ycs '.' hmall hdot, hm, digitSpan_all hyall, hy]

/-- C3 (amended): `Birthday(s)` succeeds iff `s` parses as an existing
calendar date under `strptime`'s `%d.%m.%Y` — whose day and month fields take
one- OR two-digit values and whose year is exactly four digits (flexible, not
fixed, widths).  Every existing calendar date `d.m.y` presented as such a
field triple is accepted (in particular every future date); the claim's
vectors behave as listed, and additionally `"1.1.2024"` is accepted. -/
theorem c3_thm (dcs mcs ycs : List Char) (d m y : Nat)
    (hd : dayDigits dcs = some d) (hm : monthDigits mcs = some m)
    (hy : yearDigits ycs = some y) (hy1 : 1 ≤ y) (hy9 : y ≤ 9999)
    (hdm : d ≤ days_in_month m y) :
    isOkE (mkBirthday ⟨dcs ++ '.' :: (mcs ++ '.' :: ycs)⟩) = true ∧
    isOkE (mkBirthday "29.02.2024") = true ∧
    isOkE (mkBirthday "30.02.2024") = false ∧
    isOkE (mkBirthday "31.04.2023") = false ∧
    isOkE (mkBirthday "29.02.2023") = false ∧
    isOkE (mkBirthday "1.1.2024") = true := by
  refine ⟨?_, by decide, by decide, by decide, by decide, by decide⟩
  have hs := strptime_of_fields dcs mcs ycs d m y hd hm hy
  have ht : toDate? d m y = some (d, m, y) := by
    unfold toDate?
    rw [if_pos]
    exact ⟨hy1, hy9, (monthDigits_some hm).1, (monthDigits_some hm).2.1,
           (dayDigits_some hd).1, hdm⟩
  unfold mkBirthday parse_date
  rw [show (String.mk (dcs ++ '.' :: (mcs ++ '.' :: ycs))).data =
        dcs ++ '.' :: (mcs ++ '.' :: ycs) from rfl]
  rw [hs]
  simp [ht, isOkE]

theorem c3_wit :
    isOkE (mkBirthday (String.mk ['2', '5', '.', '1', '2', '.', '2', '9', '9', '9'])) = true ∧
    isOkE (mkBirthday "29.02.2024") = true ∧
    isOkE (mkBirthday "30.02.2024") = false ∧
    isOkE (mkBirthday "31.04.2023") = false ∧
    isOkE (mkBirthday "29.02.2023") = false ∧
    isOkE (mkBirthday "1.1.2024") = true :=
  c3_thm ['2', '5'] ['1', '2'] ['2', '9', '9', '9'] 25 12 2999
    (by decide) (by decide) (by decide) (by decide) (by decide) (by decide)

/-- A key absent from the book leaves `pop` a no-op. -/
theorem bookPop_absent (book : Book) (name : String) (h : bookGet book name = none) :
    bookPop book name = book := by
  unfold bookGet at h
  rw [Option.map_eq_none'] at h
  rw [List.find?_eq_none] at h
  unfold bookPop
  apply List.filter_eq_self.mpr
  intro a ha
  simpa using h a ha

/-- C5: on a Directory without the key `"Ghost"`, `find ["Ghost"]` fails with
the "user not found" ValidationError while `delete ["Ghost"]` succeeds with a
confirmation message and leaves the records unchanged (idempotent no-op);
with no name argument both fail with "Contact name missing". -/
theorem c5_thm (book : Book) (hg : bookGet book "Ghost" = none) :
    find book ["Ghost"] = .error "User Ghost not found" ∧
    delete book ["Ghost"] = .ok ("Contact Ghost deleted", book) ∧
    find book ([] : List String) = .error "Contact name missing" ∧
    delete book ([] : List String) = .error "Contact name missing" := by
  refine ⟨?_, ?_, rfl, rfl⟩
  · simp [find, hg]
  · simp [delete, bookPop_absent book "Ghost" hg]

theorem c5_wit :
    find annBook ["Ghost"] = .error "User Ghost not found" ∧
    delete annBook ["Ghost"] = .ok ("Contact Ghost deleted", annBook) ∧
    find annBook ([] : List String) = .error "Contact name missing" ∧
    delete annBook ([] : List String) = .error "Contact name missing" :=
  c5_thm annBook (by decide)

/-- C6: `add_record` on an existing Record with a valid phone fails with the
"already exists" ValidationError when that exact value is already present
(raising before any mutation), and otherwise appends the phone at the end of
the list, preserving the existing order. -/
theorem c6_thm (book : Book) (name : String) (r : Rec) (phone : String)
    (hget : bookGet book name = some r) (hval : is_valid_phone phone = true) :
    (phone ∈ r.phones →
      add_record book [name, phone] =
        .error ("The phone " ++ phone ++ " already exists in contact " ++ name)) ∧
    (phone ∉ r.phones →
      add_record book [name, phone] =
        .ok ("New phone for contact " ++ name ++ " has been added",
             bookUpdate book name { r with phones := r.phones ++ [phone] })) := by
  constructor
  · intro hmem
    simp [add_record, hget, mkPhone, hval, hmem]
  · intro hmem
    simp [add_record, hget, mkPhone, hval, hmem]

theorem c6_wit :
    add_record [("Ann", ⟨"Ann", ["123-4567-890"], none⟩)] ["Ann", "123-4567-890"] =
      .error "The phone 123-4567-890 already exists in contact Ann" ∧
    add_record [("Ann", ⟨"Ann", ["123-4567-890"], none⟩)] ["Ann", "123-4567-891"] =
      .ok ("New phone for contact Ann has been added",
           [("Ann", ⟨"Ann", ["123-4567-890", "123-4567-891"], none⟩)]) := by
  constructor
  · exact (c6_thm [("Ann", ⟨"Ann", ["123-4567-890"], none⟩)] "Ann"
      ⟨"Ann", ["123-4567-890"], none⟩ "123-4567-890" (by decide) (by decide)).1
      (by decide)
  · have h := (c6_thm [("Ann", ⟨"Ann", ["123-4567-890"], none⟩)] "Ann"
      ⟨"Ann", ["123-4567-890"], none⟩ "123-4567-891" (by decide) (by decide)).2
      (by decide)
    rw [h]
    decide

/-- `find?` on a list split around the first occurrence returns that value. -/
theorem find?_first (pre post : List String) (old : String) (h : old ∉ pre) :
    (pre ++ old :: post).find? (fun p => p = old) = some old := by
  induction pre with
  | nil => simp [List.find?]
  | cons a tl ih =>
    have ha : a ≠ old := by intro he; exact h (he ▸ List.mem_cons_self a tl)
    have htl : old ∉ tl := fun hm => h (List.mem_cons_of_mem a hm)
    simpa [List.find?_cons, ha] using ih htl

/-- `replaceFirst` rewrites exactly the first occurrence, in place. -/
theorem replaceFirst_append (pre post : List String) (old np : String) (h : old ∉ pre) :
    replaceFirst (pre ++ old :: post) old np = pre ++ np :: post := by
  induction pre with
  | nil => simp [replaceFirst]
  | cons a tl ih =>
    have ha : a ≠ old := by intro he; exact h (he ▸ List.mem_cons_self a tl)
    have htl : old ∉ tl := fun hm => h (List.mem_cons_of_mem a hm)
    simp [replaceFirst, ha, ih htl]

/-- C7: `change_phone old new` fails with a ValidationError when no phone has
value `old`; when `old` is present (first occurrence isolated as
`pre ++ old :: post`) and `new` is valid, the old entry is replaced in its
original list position, all other entries and their order unchanged. -/
theorem c7_thm (r : Rec) (old np : String) :
    (findPhone r old = none →
      change_phone r old np = .error ("Phone " ++ old ++ " not found")) ∧
    (∀ pre post, r.phones = pre ++ old :: post → old ∉ pre →
      is_valid_phone np = true →
      change_phone r old np =
        .ok ("Contact changed.", { r with phones := pre ++ np :: post })) := by
  constructor
  · intro h
    simp [change_phone, h]
  · intro pre post hsplit hpre hval
    have hf : findPhone r old = some old := by
      simpa [findPhone, hsplit] using find?_first pre post old hpre
    simp [change_phone, hf, mkPhone, hval, hsplit,
          replaceFirst_append pre post old np hpre]

theorem c7_wit :
    change_phone ⟨"Ann", ["0501111111", "0502222222", "0503333333"], none⟩
        "0502222222" "0504444444" =
      .ok ("Contact changed.",
        ⟨"Ann", ["0501111111", "0504444444", "0503333333"], none⟩) := by
  have h := (c7_thm ⟨"Ann", ["0501111111", "0502222222", "0503333333"], none⟩
      "0502222222" "0504444444").2 ["0501111111"] ["0503333333"] rfl
      (by decide) (by decide)
  simpa using h

/-- A `Birthday` whose construction succeeds stores the raw string. -/
theorem mkBirthday_ok {b : String} (h : isOkE (mkBirthday b) = true) :
    mkBirthday b = .ok b := by
  unfold mkBirthday at *
  cases hp : parse_date b with
  | none => rw [hp] at h; cases h
  | some t => rfl

/-- C8: a Record holds at most one Birthday: `add_birthday` on a Record whose
birthday is already set fails with a ValidationError (leaving the stored
value untouched, since the error is raised before any assignment), and on a
Record without one it stores the validated Birthday and returns a
confirmation message.  (No `remove_birthday`/`change_birthday` method exists
anywhere in the source, so a stored birthday can never be reassigned.) -/
theorem c8_thm (r : Rec) (b : String) :
    (∀ b0, r.birthday = some b0 →
      add_birthday r b = .error "Birthday already exists") ∧
    (r.birthday = none → isOkE (mkBirthday b) = true →
      add_birthday r b = .ok ("Birthday added", { r with birthday := some b })) := by
  constructor
  · intro b0 h
    simp [add_birthday, h]
  · intro h hv
    simp [add_birthday, h, mkBirthday_ok hv]

theorem c8_wit :
    add_birthday annRec "01.01.2000" = .error "Birthday already exists" ∧
    add_birthday bobRec "01.01.2000" =
      .ok ("Birthday added", ⟨"Bob", ["0509998877"], some "01.01.2000"⟩) := by
  constructor
  · exact (c8_thm annRec "01.01.2000").1 "12.06.1990" rfl
  · have h := (c8_thm bobRec "01.01.2000").2 rfl (by decide)
    rw [h]
    decide

/-- Decoding inverts encoding on string lists. -/
theorem unpickleStrs_map (l : List String) :
    unpickleStrs (l.map PickleVal.pstr) = some l := by
  induction l with
  | nil => rfl
  | cons a tl ih => simp [unpickleStrs, unpickleStr, ih]

/-- Decoding inverts encoding on Records. -/
theorem unpickleRec_pickleRec (r : Rec) : unpickleRec (pickleRec r) = some r := by
  obtain ⟨n, ps, bd⟩ := r
  cases bd <;> simp [pickleRec, unpickleRec, unpickleStrs_map]

/-- C9: round-trip persistence — deserializing a serialized Directory yields
a structurally equal Directory: same keys in the same order, same per-contact
phone lists in order, same birthday values. -/
theorem c9_thm (book : Book) : load_data (save_data book) = some book := by
  have h : ∀ l : Book,
      unpickleEntries (l.map (fun p => PickleVal.plist [.pstr p.1, pickleRec p.2])) =
        some l := by
    intro l
    induction l with
    | nil => rfl
    | cons hd tl ih =>
      obtain ⟨k, r⟩ := hd
      simp [unpickleEntries, unpickleRec_pickleRec, ih]
  simpa [save_data, load_data] using h book

theorem days_in_month_ge_28 (m y : Nat) : 28 ≤ days_in_month m y := by
  unfold days_in_month
  split_ifs <;> omega

theorem days_in_month_feb_le (y : Nat) : days_in_month 2 y ≤ 29 := by
  unfold days_in_month
  split_ifs <;> omega

/-- A valid month/day pair other than 29 February fits every year. -/
theorem day_fits_any_year {d m y : Nat} (h1 : 1 ≤ m) (h2 : m ≤ 12)
    (hd : d ≤ days_in_month m y) (hne : ¬(d = 29 ∧ m = 2)) (z : Nat) :
    d ≤ days_in_month m z := by
  by_cases hm : m = 2
  · subst hm
    have ha := days_in_month_feb_le y
    have hb := days_in_month_ge_28 2 z
    have : d ≠ 29 := fun he => hne ⟨he, rfl⟩
    omega
  · have : days_in_month m y = days_in_month m z := by
      unfold days_in_month
      rw [if_neg hm, if_neg hm]
    omega

/-- A successfully parsed birthday satisfies the `datetime` field bounds. -/
theorem parse_date_bounds {s : String} {d m y : Nat}
    (h : parse_date s = some (d, m, y)) :
    1 ≤ d ∧ 1 ≤ m ∧ m ≤ 12 ∧ 1 ≤ y ∧ y ≤ 9999 ∧ d ≤ days_in_month m y := by
  unfold parse_date at h
  cases hs : strptimeDMY s.data with
  | none => rw [hs] at h; cases h
  | some t =>
    obtain ⟨d0, m0, y0⟩ := t
    rw [hs] at h
    simp only [toDate?] at h
    split_ifs at h with hc
    have : d0 = d ∧ m0 = m ∧ y0 = y := by
      injection h with h1
      exact ⟨congrArg (fun p => p.1) h1, congrArg (fun p => p.2.1) h1,
             congrArg (fun p => p.2.2) h1⟩
    obtain ⟨e1, e2, e3⟩ := this
    subst e1; subst e2; subst e3
    exact ⟨hc.2.2.2.2.1, hc.2.2.1, hc.2.2.2.1, hc.1, hc.2.1, hc.2.2.2.2.2⟩

theorem replace_year_ok {d m y : Nat} (z : Nat) (h1 : 1 ≤ m) (h2 : m ≤ 12)
    (h3 : 1 ≤ d) (hd : d ≤ days_in_month m z) (hz1 : 1 ≤ z) (hz2 : z ≤ 9999) :
    replace_year ⟨y, m, d⟩ z = some ⟨z, m, d⟩ := by
  unfold replace_year
  rw [if_pos]
  exact ⟨hz1, hz2, h1, h2, h3, hd⟩

/-- The loop body equals the spec-side description on any Record whose
birthday re-parses and is not a 29 February. -/
theorem processUser_eq_spec (today : Date) (r : Rec)
    (h1 : 1 ≤ today.year) (h2 : today.year + 1 ≤ 9999)
    (hr : recBirthdayOk r = true) :
    processUser today (addDays today 7) r = .ok (specCongratulation today r) := by
  unfold processUser specCongratulation recBirthdayOk at *
  cases hb : r.birthday with
  | none => rfl
  | some bstr =>
    rw [hb] at hr
    dsimp only at hr ⊢
    cases hp : parse_date bstr with
    | none => rw [hp] at hr; simp at hr
    | some t =>
      obtain ⟨d, m, y⟩ := t
      rw [hp] at hr
      dsimp only at hr ⊢
      have hne : ¬(d = 29 ∧ m = 2) := by
        intro hc
        simp [hc.1, hc.2] at hr
      obtain ⟨hd1, hm1, hm2, hy1, hy9, hdim⟩ := parse_date_bounds hp
      have hrep1 : replace_year ⟨y, m, d⟩ today.year = some ⟨today.year, m, d⟩ :=
        replace_year_ok today.year hm1 hm2 hd1
          (day_fits_any_year hm1 hm2 hdim hne today.year) h1 (by omega)
      rw [hrep1]
      dsimp only
      by_cases hlt : dateLt ⟨today.year, m, d⟩ today
      · rw [if_pos hlt, if_pos hlt]
        have hrep2 : replace_year ⟨today.year, m, d⟩ (today.year + 1) =
            some ⟨today.year + 1, m, d⟩ :=
          replace_year_ok (today.year + 1) hm1 hm2 hd1
            (day_fits_any_year hm1 hm2 hdim hne (today.year + 1)) (by omega) h2
        rw [hrep2]
        dsimp only
        split_ifs <;> rfl
      · rw [if_neg hlt, if_neg hlt]
        dsimp only
        split_ifs <;> rfl

/-- On a book of well-behaved Records the loop is a `filterMap`. -/
theorem gubGo_ok (today : Date) (h1 : 1 ≤ today.year) (h2 : today.year + 1 ≤ 9999) :
    ∀ l : Book, goodBook l = true →
      gubGo today (addDays today 7) l =
        .ok (l.filterMap (fun p => specCongratulation today p.2)) := by
  intro l hl
  induction l with
  | nil => rfl
  | cons hd tl ih =>
    obtain ⟨k, r⟩ := hd
    rw [goodBook, List.all_cons, Bool.and_eq_true] at hl
    have htl := ih hl.2
    have hpu := processUser_eq_spec today r h1 h2 hl.1
    rw [show gubGo today (addDays today 7) ((k, r) :: tl) =
          (match processUser today (addDays today 7) r with
           | .error e => .error e
           | .ok none => gubGo today (addDays today 7) tl
           | .ok (some entry) =>
             match gubGo today (addDays today 7) tl with
             | .error e2 => .error e2
             | .ok l2 => .ok (entry :: l2)) from rfl]
    rw [hpu, htl]
    cases hsc : specCongratulation today r with
    | none => simp [List.filterMap_cons, hsc]
    | some e => simp [List.filterMap_cons, hsc]

/-- C4 (amended): for any `today` in the calendar's representable range and
any Directory whose stored birthdays re-parse and avoid 29 February, the
query returns exactly the spec-described entries — this-year occurrence
(rolled forward when already passed) inside `[today, today + 7]`, weekend
dates shifted to Monday, formatted `DD.MM.YYYY` — in Directory insertion
order (a `filterMap` over the book). -/
theorem c4_thm (today : Date) (book : Book) (h1 : 1 ≤ today.year)
    (h2 : today.year + 1 ≤ 9999) (hg : goodBook book = true) :
    get_upcoming_birthdays today book =
      .ok (book.filterMap (fun p => specCongratulation today p.2)) :=
  gubGo_ok today h1 h2 book hg

theorem c4_wit :
    get_upcoming_birthdays ⟨2024, 6, 10⟩ windowBook =
      .ok [⟨"Ann", "12.06.2024"⟩, ⟨"Sam", "17.06.2024"⟩] := by
  rw [c4_thm ⟨2024, 6, 10⟩ windowBook (by decide) (by decide) (by decide)]
  decide

/-- Re-stamping a 29 February onto a non-leap year raises. -/
theorem processUser_feb29 (today nw : Date) (r : Rec)
    (hleap : is_leap today.year = false) (hf : hasFeb29 r = true) :
    processUser today nw r = .error "day is out of range for month" := by
  unfold hasFeb29 at hf
  unfold processUser
  cases hb : r.birthday with
  | none => rw [hb] at hf; simp at hf
  | some b =>
    rw [hb] at hf
    dsimp only at hf ⊢
    cases hp : parse_date b with
    | none => rw [hp] at hf; simp at hf
    | some t =>
      obtain ⟨d, m, y⟩ := t
      rw [hp] at hf
      dsimp only at hf ⊢
      have hdm : d = 29 ∧ m = 2 := by simpa using hf
      obtain ⟨e1, e2⟩ := hdm
      subst e1; subst e2
      have hrep : replace_year ⟨y, 2, 29⟩ today.year = none := by
        unfold replace_year
        rw [if_neg]
        intro hc
        have h6 := hc.2.2.2.2.2
        unfold days_in_month at h6
        simp [hleap] at h6
      rw [hrep]

theorem recBirthdayOk_of {r : Rec} (hp : parsesOk r = true) (hf : hasFeb29 r = false) :
    recBirthdayOk r = true := by
  unfold parsesOk hasFeb29 recBirthdayOk at *
  cases hb : r.birthday with
  | none => rfl
  | some b =>
    rw [hb] at hp hf
    dsimp only at hp hf ⊢
    cases hpd : parse_date b with
    | none => rw [hpd] at hp; simp at hp
    | some t =>
      obtain ⟨d, m, y⟩ := t
      rw [hpd] at hf
      dsimp only at hf ⊢
      simp only [hf]
      rfl

/-- With a 29-February Record present and a non-leap current year, the loop
raises before returning. -/
theorem gubGo_feb29 (today : Date) (h1 : 1 ≤ today.year) (h2 : today.year + 1 ≤ 9999)
    (hleap : is_leap today.year = false) :
    ∀ l : Book, l.all (fun p => parsesOk p.2) = true →
      l.any (fun p => hasFeb29 p.2) = true →
      isOkE (gubGo today (addDays today 7) l) = false := by
  intro l
  induction l with
  | nil => intro _ hany; cases hany
  | cons hd tl ih =>
    intro hall hany
    obtain ⟨k, r⟩ := hd
    rw [List.all_cons, Bool.and_eq_true] at hall
    by_cases hf : hasFeb29 r = true
    · rw [show gubGo today (addDays today 7) ((k, r) :: tl) =
            (match processUser today (addDays today 7) r with
             | .error e => .error e
             | .ok none => gubGo today (addDays today 7) tl
             | .ok (some entry) =>
               match gubGo today (addDays today 7) tl with
               | .error e2 => .error e2
               | .ok l2 => .ok (entry :: l2)) from rfl]
      rw [processUser_feb29 today (addDays today 7) r hleap hf]
      rfl
    · have hf' : hasFeb29 r = false := by
        revert hf; cases hasFeb29 r <;> simp
      have htl_any : tl.any (fun p => hasFeb29 p.2) = true := by
        rw [List.any_cons] at hany
        simpa [hf'] using hany
      have hrb := recBirthdayOk_of hall.1 hf'
      have hpu := processUser_eq_spec today r h1 h2 hrb
      rw [show gubGo today (addDays today 7) ((k, r) :: tl) =
            (match processUser today (addDays today 7) r with
             | .error e => .error e
             | .ok none => gubGo today (addDays today 7) tl
             | .ok (some entry) =>
               match gubGo today (addDays today 7) tl with
               | .error e2 => .error e2
               | .ok l2 => .ok (entry :: l2)) from rfl]
      rw [hpu]
      cases hsc : specCongratulation today r with
      | none => exact ih hall.2 htl_any
      | some e =>
        have hres := ih hall.2 htl_any
        cases hgo : gubGo today (addDays today 7) tl with
        | error e2 => rfl
        | ok l2 => rw [hgo] at hres; simp [isOkE] at hres

/-- C10: `get_upcoming_birthdays` is partial in the current year.  On a book
whose stored birthday strings all re-parse (the construction-time invariant):
if some Record's birthday is a 29 February and the current year is not a leap
year, the query raises a `ValueError` (from re-stamping 29 February onto the
current year) instead of returning a list; and if no stored birthday falls on
29 February, the query always returns a list. -/
theorem c10_thm (today : Date) (book : Book) (h1 : 1 ≤ today.year)
    (h2 : today.year + 1 ≤ 9999)
    (hall : book.all (fun p => parsesOk p.2) = true) :
    (is_leap today.year = false → book.any (fun p => hasFeb29 p.2) = true →
      isOkE (get_upcoming_birthdays today book) = false) ∧
    (goodBook book = true → isOkE (get_upcoming_birthdays today book) = true) := by
  constructor
  · intro hleap hany
    exact gubGo_feb29 today h1 h2 hleap book hall hany
  · intro hg
    rw [get_upcoming_birthdays, gubGo_ok today h1 h2 book hg]
    rfl

theorem c10_wit :
    isOkE (get_upcoming_birthdays ⟨2023, 6, 10⟩ leoBook) = false ∧
    isOkE (get_upcoming_birthdays ⟨2023, 6, 10⟩ windowBook) = true :=
  ⟨(c10_thm ⟨2023, 6, 10⟩ leoBook (by decide) (by decide) (by decide)).1
      (by decide) (by decide),
   (c10_thm ⟨2023, 6, 10⟩ windowBook (by decide) (by decide) (by decide)).2 (by decide)⟩

end ContactBook
